import Mathlib

/-!
Verification development for the phoenixd-dashboard payment-notification
relay: event classification, the listener/supervisor reconnection state
machine, the broadcast hub, the REST error path, the receive page's
payment-wait connection, and the `truncateMiddle` string utility.

Machine integers are modelled as `Nat` (all quantities involved are small
non-negative counters and millisecond delays; no overflow is reachable).
JavaScript strings are modelled as `String` / `List Char`.  A WebSocket
frame is modelled as either a frame whose JSON parse succeeds, yielding a
structured event, or a frame whose parse throws (`Msg.bad`); the thrown
`SyntaxError` is represented by the `Except.error` branch of `parseFrame`.
-/

/-- The structured payment event flowing through the pipeline: the parsed
form of an upstream JSON frame.  Field layout follows the `PaymentEvent`
shape exercised by the frontend hook tests and the backend broadcast tests:
a `type` tag plus optional `amountSat`, `paymentHash`, `payerNote`,
`payerKey`, `externalId`. -/
structure Event where
  type : String
  amountSat : Option Nat
  paymentHash : Option String
  payerNote : Option String
  payerKey : Option String
  externalId : Option String
deriving DecidableEq, Repr

/-- A raw incoming WebSocket frame, abstracted at the JSON boundary:
`good e` is a frame that `JSON.parse` turns into the structured event `e`;
`bad raw` is a frame on which `JSON.parse` throws a `SyntaxError`. -/
inductive Msg where
  | good (e : Event)
  | bad (raw : String)
deriving DecidableEq, Repr

/-- The `JSON.parse` step of a message handler: a `bad` frame produces the
thrown exception as an `Except.error`, a `good` frame produces the parsed
event. -/
def parseFrame : Msg → Except String Event
  | .good e => .ok e
  | .bad raw => .error ("SyntaxError: unexpected token in " ++ raw)

/-- Modelled from the spec: the message handler of the browser-side
Downstream Listener (`use-websocket` hook; the hook implementation file is
not under src/, only its test suite is).  Per spec §4.4: parse the frame;
if parsing fails, log and discard, never throwing out of the handler; on a
parsed event invoke the caller's `onPaymentReceived` callback exactly when
the `type` field is the string "payment_received", passing the parsed
event through unchanged.  Returns (callback invocations, error logs). -/
def handleMessage (m : Msg) : List Event × List String :=
  match parseFrame m with
  | .error err => ([], [err])
  | .ok e => (if e.type = "payment_received" then [e] else [], [])

/-- Modelled from the spec: sequential processing of a burst of frames by
the Downstream Listener, one `onmessage` callback per frame in arrival
order (spec §5: events are delivered in the order received, no reordering
buffer). -/
def handleMessages : List Msg → List Event × List String
  | [] => ([], [])
  | m :: ms =>
      ((handleMessage m).1 ++ (handleMessages ms).1,
       (handleMessage m).2 ++ (handleMessages ms).2)

/-- JavaScript `str.slice(-n)` on a string modelled as a character list:
`slice(-0)` is `slice(0)`, the whole string; for `0 < n` it takes the last
`min n (length str)` characters. -/
def jsSliceFromEnd (s : List Char) (n : Nat) : List Char :=
  if n = 0 then s else s.drop (s.length - n)

/-- The literal `"..."` infix inserted by `truncateMiddle`. -/
def dots : List Char := ['.', '.', '.']

/-- `truncateMiddle` from `lib/utils.ts`: return the string unchanged when
it is no longer than `startChars + endChars`, otherwise the first
`startChars` characters, `"..."`, and `str.slice(-endChars)`. -/
def truncateMiddle (str : List Char) (startChars endChars : Nat) : List Char :=
  if str.length ≤ startChars + endChars then str
  else str.take startChars ++ dots ++ jsSliceFromEnd str endChars

/-- The fixed reconnection delay in milliseconds shared by the Reconnection
Supervisor and the Downstream Listener (spec §4.2/§4.4: a fixed 5-second
delay, no backoff). -/
def RECONNECT_DELAY_MS : Nat := 5000

/-- Modelled from the spec: the connection-lifecycle state held by the
Reconnection Supervisor and, identically (spec §4.4 "Identical
reconnect-on-drop behavior"), by the browser-side `use-websocket` hook,
whose implementation file is not under src/ (only its test suite is).
`pendingTimer` is the number of virtual milliseconds left until a
scheduled reconnect timer fires (`none` when no retry is scheduled);
`connections` counts connection attempts made so far; `attempts` is the
reconnect-attempt counter; `shutDown` is the terminal teardown flag. -/
structure Hook where
  isConnected : Bool
  shutDown : Bool
  attempts : Nat
  pendingTimer : Option Nat
  connections : Nat
deriving DecidableEq, Repr

/-- The inputs driving the supervisor/listener state machine: the
transport's open and close/error callbacks, virtual time advancing by `d`
milliseconds (firing a due retry timer), caller-initiated teardown, and an
incoming frame. -/
inductive WsInput where
  | opened
  | closed
  | advance (d : Nat)
  | teardown
  | message (m : Msg)
deriving DecidableEq, Repr

/-- Modelled from the spec: one transition of the supervisor/listener state
machine (spec §4.2, §4.4, §5).  On close/error while not shut down, a
retry is scheduled after the fixed delay; a due timer that finds the
component not shut down makes a fresh connection attempt; a timer firing
after shutdown must no-op; teardown cancels any pending timer, closes the
connection and is terminal; a successful open resets the attempt counter;
incoming frames never change the connection state. -/
def step (s : Hook) (i : WsInput) : Hook :=
  match i with
  | .opened =>
      if s.shutDown then s
      else { s with isConnected := true, attempts := 0 }
  | .closed =>
      if s.shutDown then s
      else { s with isConnected := false, pendingTimer := some RECONNECT_DELAY_MS }
  | .advance d =>
      if s.shutDown then s
      else
        match s.pendingTimer with
        | none => s
        | some r =>
            if r ≤ d then
              { s with pendingTimer := none, attempts := s.attempts + 1,
                       connections := s.connections + 1 }
            else { s with pendingTimer := some (r - d) }
  | .teardown =>
      { s with shutDown := true, isConnected := false, pendingTimer := none }
  | .message _ => s

/-- Modelled from the spec: running the supervisor/listener state machine
over a sequence of inputs. -/
def run (s : Hook) (is : List WsInput) : Hook :=
  is.foldl step s

/-- Modelled from the spec: one subscriber in the Broadcast Hub's registry
(spec §3, §4.3; the backend hub implementation is not under src/, only its
test suite is): an opaque connection identity plus the liveness of its
socket (`connOpen` mirrors `readyState === WebSocket.OPEN`). -/
structure Subscriber where
  sid : Nat
  connOpen : Bool
deriving DecidableEq, Repr

/-- One optional numeric JSON member, rendered as `,"name":value` when
present and as nothing when absent. -/
def jsonOptNat (name : String) (v : Option Nat) : String :=
  match v with
  | some n => ",\"" ++ name ++ "\":" ++ toString n
  | none => ""

/-- One optional string JSON member, rendered as `,"name":"value"` when
present and as nothing when absent. -/
def jsonOptStr (name : String) (v : Option String) : String :=
  match v with
  | some x => ",\"" ++ name ++ "\":\"" ++ x ++ "\""
  | none => ""

/-- `JSON.stringify` of a payment event: the single serialized form the
hub produces once per broadcast. -/
def serializeEvent (e : Event) : String :=
  "\x7b\"type\":\"" ++ e.type ++ "\""
    ++ jsonOptNat "amountSat" e.amountSat
    ++ jsonOptStr "paymentHash" e.paymentHash
    ++ jsonOptStr "payerNote" e.payerNote
    ++ jsonOptStr "payerKey" e.payerKey
    ++ jsonOptStr "externalId" e.externalId
    ++ "\x7d"

/-- Modelled from the spec: the backend hub's `broadcastPayment` (spec
§4.3 and the broadcast test suite; backend `src/index.ts` is not under
src/).  The event is serialized once; the registry is walked with an
independent per-subscriber send: a subscriber whose connection is open is
sent the serialized form and kept, one whose connection is closed is sent
nothing and dropped from the registry.  Returns (sends performed as
(subscriber id, payload) pairs, registry after the broadcast). -/
def broadcastPayment (subs : List Subscriber) (e : Event) :
    List (Nat × String) × List Subscriber :=
  subs.foldl
    (fun acc c =>
      if c.connOpen then
        (acc.1 ++ [(c.sid, serializeEvent e)], acc.2 ++ [c])
      else (acc.1, acc.2))
    ([], [])

/-- An upstream HTTP response as seen by the backend service client:
status code and response text. -/
structure HttpResponse where
  status : Nat
  body : String
deriving DecidableEq, Repr

/-- The typed failure raised by `PhoenixdService` methods on a non-2xx
upstream response, carrying the HTTP status and the error message. -/
structure UpstreamError where
  status : Nat
  message : String
deriving DecidableEq, Repr

/-- Modelled from the spec: the shared response handling of every
`PhoenixdService` method (spec §6; `backend/src/routes/phoenixd.ts` is not
under src/, only its test suite is).  A single authenticated round trip
whose 2xx response yields the response body, and whose non-2xx response
raises `UpstreamError` with the status and a `Phoenixd API error: status`
message, as the test suite's `rejects.toThrow` expectations record. -/
def serviceRequest (resp : HttpResponse) : Except UpstreamError String :=
  if 200 ≤ resp.status ∧ resp.status < 300 then .ok resp.body
  else .error ⟨resp.status, "Phoenixd API error: " ++ toString resp.status⟩

/-- Modelled from the spec: a REST pass-through route handler (spec §6/§7;
`backend/src/routes/node.ts` is not under src/, only its test suite is).
It makes exactly one service call and maps the outcome to the browser
response: 200 with the body on success, 500 with the error message on a
typed upstream failure, never retrying.  Returns (number of service calls
made, (HTTP status, response body)). -/
def routeHandler (resp : HttpResponse) : Nat × (Nat × String) :=
  match serviceRequest resp with
  | .ok body => (1, (200, body))
  | .error err => (1, (500, err.message))

/-- The payment-wait state of the ReceivePage (`receive/page.tsx`):
whether the awaited invoice has been marked paid, the displayed amount,
and how many confetti-and-sound celebrations have been scheduled. -/
structure ReceiveState where
  isPaid : Bool
  paidAmount : Nat
  celebrations : Nat
deriving DecidableEq, Repr

/-- The amount the ReceivePage displays for a matching payment event:
JavaScript `data.amountSat || parseInt(invoiceAmount)`, where a missing or
zero (falsy) `amountSat` falls back to the parsed invoice amount
(`fallback`). -/
def paidAmountOf (e : Event) (fallback : Nat) : Nat :=
  match e.amountSat with
  | some a => if a = 0 then fallback else a
  | none => fallback

/-- The `ws.onmessage` handler of `receive/page.tsx` (lines 142-159):
parse the frame inside a try block; on a parse failure the catch logs
`WebSocket parse error` and the state is untouched; on a parsed event the
paid transition and its celebration side effects fire exactly when
`data.type === 'payment_received'` and `data.paymentHash` equals the
awaited invoice's hash, and any other event leaves the state unchanged.
Returns (new state, error logs). -/
def receiveOnMessage (awaited : String) (fallback : Nat) (st : ReceiveState)
    (m : Msg) : ReceiveState × List String :=
  match parseFrame m with
  | .error err => (st, ["WebSocket parse error: " ++ err])
  | .ok e =>
      if e.type = "payment_received" ∧ e.paymentHash = some awaited then
        ({ isPaid := true, paidAmount := paidAmountOf e fallback,
           celebrations := st.celebrations + 1 }, [])
      else (st, [])

/-- The dependency array of the ReceivePage's WebSocket `useEffect`
(`receive/page.tsx` line 166): `[invoiceResult?.paymentHash,
invoiceAmount]`. -/
structure RenderDeps where
  paymentHash : Option String
  invoiceAmount : String
deriving DecidableEq, Repr

/-- The inputs driving the ReceivePage's connection lifecycle: a render
re-evaluating the effect with the current dependency values, a spontaneous
close or error of the page's socket, and component unmount. -/
inductive PageInput where
  | render (deps : RenderDeps)
  | socketClosed
  | unmount
deriving DecidableEq, Repr

/-- The connection bookkeeping of the ReceivePage: the dependency values
at the last effect run, the awaited hash of the currently open socket (if
any), and the counts of sockets opened and of close() calls made by the
page. -/
structure PageWs where
  prevDeps : Option RenderDeps
  currentWs : Option String
  opened : Nat
  closes : Nat
deriving DecidableEq, Repr

/-- The page state before the first render: no effect has run and no
socket exists. -/
def initPage : PageWs := ⟨none, none, 0, 0⟩

/-- The React effect semantics of the ReceivePage's WebSocket `useEffect`
(`receive/page.tsx` lines 134-166).  A render whose dependency values
equal the previous run's is a no-op; otherwise the previous effect's
cleanup closes the current socket and the effect body runs: with a
`paymentHash` present it opens a new socket for that hash, with none it
returns early.  The page installs no `onclose`/`onerror` handler, so a
spontaneous socket close only forgets the socket; unmount runs the
cleanup, closing the current socket. -/
def pageStep (st : PageWs) (i : PageInput) : PageWs :=
  match i with
  | .render deps =>
      if st.prevDeps = some deps then st
      else
        let closes1 := st.closes + (if st.currentWs.isSome then 1 else 0)
        match deps.paymentHash with
        | some h =>
            { prevDeps := some deps, currentWs := some h,
              opened := st.opened + 1, closes := closes1 }
        | none =>
            { prevDeps := some deps, currentWs := none,
              opened := st.opened, closes := closes1 }
  | .socketClosed => { st with currentWs := none }
  | .unmount =>
      { st with currentWs := none,
                closes := st.closes + (if st.currentWs.isSome then 1 else 0) }

/-- C10: `truncateMiddle(str, startChars, endChars)` returns `str`
unchanged whenever `str.length ≤ startChars + endChars`; otherwise, for
positive `endChars`, it returns the first `startChars` characters, `...`,
and the last `endChars` characters; and for `endChars = 0` the JavaScript
`slice(-0)` takes the entire string, so for every `str` longer than
`startChars` the result is the first `startChars` characters, `...`, and
the whole original string — an output strictly longer than the input. -/
theorem truncateMiddle_spec (str : List Char) (s e : Nat) :
    (str.length ≤ s + e → truncateMiddle str s e = str) ∧
    (s + e < str.length → 0 < e →
        truncateMiddle str s e = str.take s ++ dots ++ str.drop (str.length - e)) ∧
    (s < str.length →
        truncateMiddle str s 0 = str.take s ++ dots ++ str ∧
        str.length < (truncateMiddle str s 0).length) := by
  refine ⟨fun h => by simp [truncateMiddle, h], ?_, ?_⟩
  · intro h he
    have hns : ¬ str.length ≤ s + e := by omega
    have hez : e ≠ 0 := by omega
    simp [truncateMiddle, hns, jsSliceFromEnd, hez]
  · intro h
    have hns : ¬ str.length ≤ s + 0 := by omega
    have heq : truncateMiddle str s 0 = str.take s ++ dots ++ str := by
      rw [truncateMiddle, if_neg hns]
      rfl
    refine ⟨heq, ?_⟩
    rw [heq]
    simp [dots]
    omega

/-- Auxiliary for C1: the broadcast fold in closed form — the sends are
one (id, payload) pair per open subscriber in registry order, and the
registry that survives is exactly the open subscribers. -/
theorem broadcastPayment_eq (subs : List Subscriber) (e : Event) :
    broadcastPayment subs e
      = ((subs.filter (fun c => c.connOpen)).map (fun c => (c.sid, serializeEvent e)),
         subs.filter (fun c => c.connOpen)) := by
  suffices h : ∀ a1 a2,
      subs.foldl
        (fun acc c =>
          if c.connOpen then (acc.1 ++ [(c.sid, serializeEvent e)], acc.2 ++ [c])
          else (acc.1, acc.2)) (a1, a2)
      = (a1 ++ (subs.filter (fun c => c.connOpen)).map
            (fun c => (c.sid, serializeEvent e)),
         a2 ++ subs.filter (fun c => c.connOpen)) by
    simpa [broadcastPayment] using h [] []
  induction subs with
  | nil => intro a1 a2; simp
  | cons c cs ih =>
      intro a1 a2
      cases hc : c.connOpen <;> simp [hc, ih, List.filter_cons]

/-- Auxiliary for C1: in a registry whose subscriber ids are distinct, the
per-subscriber send list contains the pair for a registered subscriber
exactly once. -/
theorem count_send_once (msg : String) :
    ∀ (l : List Subscriber), (l.map Subscriber.sid).Nodup → ∀ c ∈ l,
      (l.map (fun x => (x.sid, msg))).count (c.sid, msg) = 1 := by
  intro l
  induction l with
  | nil => intro _ c hc; simp at hc
  | cons b t ih =>
      intro hnd c hc
      have hnd' : (t.map Subscriber.sid).Nodup := (List.nodup_cons.mp hnd).2
      have hbt : b.sid ∉ t.map Subscriber.sid := (List.nodup_cons.mp hnd).1
      rcases List.mem_cons.mp hc with hcb | hct
      · subst hcb
        have hzero : (t.map (fun x => (x.sid, msg))).count (c.sid, msg) = 0 := by
          rw [List.count_eq_zero]
          intro hmem
          rcases List.mem_map.mp hmem with ⟨x, hx, hxe⟩
          exact hbt (List.mem_map.mpr ⟨x, hx, congrArg Prod.fst hxe⟩)
        simp [List.count_cons, hzero]
      · have hne : b.sid ≠ c.sid := by
          intro heq
          exact hbt (heq ▸ List.mem_map.mpr ⟨c, hct, rfl⟩)
        have : ((c.sid, msg) = (b.sid, msg)) = False := by
          simp [Prod.ext_iff]
          intro h'
          exact absurd h'.symm hne
        simp [List.count_cons, ih hnd' c hct, this]

/-- C1: broadcasting an event sends the one serialized payload exactly
once to each registered subscriber whose connection is open, sends nothing
to a subscriber whose connection is already closed, and removes each
closed subscriber from the registry, so that after the broadcast only open
subscribers remain registered. -/
theorem broadcast_delivery (subs : List Subscriber) (e : Event)
    (hids : (subs.map Subscriber.sid).Nodup) :
    (∀ c ∈ subs, c.connOpen = true →
        (broadcastPayment subs e).1.count (c.sid, serializeEvent e) = 1) ∧
    (∀ c ∈ subs, c.connOpen = false →
        ∀ m, (c.sid, m) ∉ (broadcastPayment subs e).1) ∧
    (∀ p ∈ (broadcastPayment subs e).1, p.2 = serializeEvent e) ∧
    (broadcastPayment subs e).2 = subs.filter (fun c => c.connOpen) ∧
    (∀ c ∈ (broadcastPayment subs e).2, c.connOpen = true) := by
  have hsub : List.Sublist (subs.filter (fun c => c.connOpen)) subs :=
    List.filter_sublist subs
  have hndf : ((subs.filter (fun c => c.connOpen)).map Subscriber.sid).Nodup :=
    (hsub.map Subscriber.sid).nodup hids
  refine ⟨?_, ?_, ?_, ?_, ?_⟩
  · intro c hc hopen
    rw [broadcastPayment_eq]
    exact count_send_once (serializeEvent e) _ hndf c
      (List.mem_filter.mpr ⟨hc, by simp [hopen]⟩)
  · intro c hc hclosed m hmem
    rw [broadcastPayment_eq] at hmem
    rcases List.mem_map.mp hmem with ⟨x, hx, hxe⟩
    have hxsubs := (List.mem_filter.mp hx).1
    have hxopen : x.connOpen = true := by
      simpa using (List.mem_filter.mp hx).2
    have hxc : x = c :=
      List.inj_on_of_nodup_map hids hxsubs hc (congrArg Prod.fst hxe)
    rw [hxc] at hxopen
    rw [hxopen] at hclosed
    exact absurd hclosed (by decide)
  · intro p hp
    rw [broadcastPayment_eq] at hp
    rcases List.mem_map.mp hp with ⟨x, _, hxe⟩
    exact (congrArg Prod.snd hxe).symm
  · rw [broadcastPayment_eq]
  · intro c hc
    rw [broadcastPayment_eq] at hc
    simpa using (List.mem_filter.mp hc).2

/-- Witness for C1 at the spec's scenario: two open subscribers and one
closed one — two sends of the identical payload, the closed subscriber
receives nothing and is gone from the registry. -/
theorem broadcast_delivery_witness :
    (broadcastPayment [⟨1, true⟩, ⟨2, true⟩, ⟨3, false⟩]
        ⟨"payment_received", some 1000, none, none, none, none⟩).1.count
      (1, serializeEvent ⟨"payment_received", some 1000, none, none, none, none⟩) = 1 ∧
    (∀ m, (3, m) ∉ (broadcastPayment [⟨1, true⟩, ⟨2, true⟩, ⟨3, false⟩]
        ⟨"payment_received", some 1000, none, none, none, none⟩).1) ∧
    (broadcastPayment [⟨1, true⟩, ⟨2, true⟩, ⟨3, false⟩]
        ⟨"payment_received", some 1000, none, none, none, none⟩).2
      = [⟨1, true⟩, ⟨2, true⟩] := by
  have h := broadcast_delivery [⟨1, true⟩, ⟨2, true⟩, ⟨3, false⟩]
    ⟨"payment_received", some 1000, none, none, none, none⟩ (by decide)
  refine ⟨h.1 ⟨1, true⟩ (by decide) rfl, h.2.1 ⟨3, false⟩ (by decide) rfl, ?_⟩
  rw [h.2.2.2.1]
  decide

/-- Auxiliary for C2: while a retry timer is pending and the component is
not shut down, advancing virtual time by strictly less than the remaining
delay, in any number of increments, never makes a connection attempt. -/
theorem advance_below_delay (ds : List Nat) :
    ∀ (s : Hook) (r : Nat), s.shutDown = false → s.pendingTimer = some r →
      ds.sum < r → (run s (ds.map WsInput.advance)).connections = s.connections := by
  induction ds with
  | nil => intro s r _ _ _; rfl
  | cons d ds ih =>
      intro s r hs hp hsum
      have hsum' : d + ds.sum < r := by simpa using hsum
      have hd : ¬ r ≤ d := by omega
      have hstep : step s (.advance d) = { s with pendingTimer := some (r - d) } := by
        simp [step, hs, hp, hd]
      have hrun : run s ((d :: ds).map WsInput.advance)
          = run (step s (.advance d)) (ds.map WsInput.advance) := rfl
      rw [hrun, hstep]
      exact ih { s with pendingTimer := some (r - d) } (r - d) hs rfl (by omega)

/-- C2: a disconnect of a component that is not shut down schedules a
reconnect attempt with the fixed `RECONNECT_DELAY_MS` delay — the same
nonzero constant whatever the attempt count; the attempt never occurs
sooner than the delay; once the delay has elapsed the attempt does occur;
and a successful reconnect resets the attempt counter to 0. -/
theorem fixed_delay_reconnect (s : Hook) (h : s.shutDown = false) (ds : List Nat) :
    (step s .closed).pendingTimer = some RECONNECT_DELAY_MS ∧
    0 < RECONNECT_DELAY_MS ∧
    (ds.sum < RECONNECT_DELAY_MS →
        (run (step s .closed) (ds.map WsInput.advance)).connections = s.connections) ∧
    (∀ d, RECONNECT_DELAY_MS ≤ d →
        (step (step s .closed) (.advance d)).connections = s.connections + 1) ∧
    (step s .opened).attempts = 0 := by
  have hclosed : step s .closed
      = { s with isConnected := false, pendingTimer := some RECONNECT_DELAY_MS } := by
    simp [step, h]
  refine ⟨by rw [hclosed], by decide, ?_, ?_, by simp [step, h]⟩
  · intro hsum
    rw [hclosed]
    exact advance_below_delay ds _ RECONNECT_DELAY_MS h rfl hsum
  · intro d hd
    rw [hclosed]
    simp [step, h, hd]

/-- Witness for C2: a concrete connected-then-dropped state, advanced by
two increments totalling 3000 ms (no attempt) and then past the 5000 ms
delay (one attempt); reopening resets the attempt counter. -/
theorem fixed_delay_reconnect_witness :
    (step ⟨true, false, 3, none, 2⟩ .closed).pendingTimer = some RECONNECT_DELAY_MS ∧
    (run (step ⟨true, false, 3, none, 2⟩ .closed)
        ([1000, 2000].map WsInput.advance)).connections = 2 ∧
    (step (step ⟨true, false, 3, none, 2⟩ .closed) (.advance 5000)).connections = 3 ∧
    (step ⟨true, false, 3, none, 2⟩ .opened).attempts = 0 := by
  have h := fixed_delay_reconnect ⟨true, false, 3, none, 2⟩ rfl [1000, 2000]
  exact ⟨h.1, h.2.2.1 (by decide), h.2.2.2.1 5000 (by decide), h.2.2.2.2⟩

/-- Auxiliary for C3: the `ShutDown` state is absorbing and makes no
connection attempt, whatever input arrives — including a late disconnect
callback or an already-scheduled retry timer firing. -/
theorem shutdown_absorbing (s : Hook) (i : WsInput) (h : s.shutDown = true) :
    (step s i).shutDown = true ∧ (step s i).connections = s.connections := by
  cases i <;> simp [step, h]

/-- Auxiliary for C3: a shut-down component never changes its connection
count over any input sequence. -/
theorem run_shutdown (is : List WsInput) :
    ∀ s : Hook, s.shutDown = true →
      (run s is).connections = s.connections ∧ (run s is).shutDown = true := by
  induction is with
  | nil => intro s h; exact ⟨rfl, h⟩
  | cons i is ih =>
      intro s h
      have h1 := shutdown_absorbing s i h
      have h2 := ih (step s i) h1.1
      exact ⟨h2.1.trans h1.2, h2.2⟩

/-- C3: after teardown, no further connection attempt ever occurs for any
subsequent input sequence — late disconnect callbacks, fired retry timers
and arbitrary elapsed time included — and the `ShutDown` state is
terminal. -/
theorem no_reconnect_after_shutdown (s : Hook) (is : List WsInput) :
    (run (step s .teardown) is).connections = s.connections ∧
    (run (step s .teardown) is).shutDown = true := by
  have h := run_shutdown is (step s .teardown) rfl
  exact ⟨h.1, h.2⟩

/-- C5: the Listener's payment callback is invoked exactly once per
delivered frame whose parsed `type` field is exactly the string
`"payment_received"`, with every declared field passed through unchanged
(the callback receives the parsed event itself), and it is never invoked
for a frame of any other type. -/
theorem listener_payment_callback (e : Event) :
    (e.type = "payment_received" → (handleMessage (.good e)).1 = [e]) ∧
    (e.type ≠ "payment_received" → (handleMessage (.good e)).1 = []) := by
  constructor <;> intro h <;> simp [handleMessage, parseFrame, h]

/-- Witness for C5 at the test suite's full-fields payment event and the
`channel_opened` event. -/
theorem listener_payment_callback_witness :
    (handleMessage (.good ⟨"payment_received", some 50000, some "b", some "Test payment",
        some "02abc...", some "order-123"⟩)).1
      = [⟨"payment_received", some 50000, some "b", some "Test payment",
          some "02abc...", some "order-123"⟩] ∧
    (handleMessage (.good ⟨"channel_opened", none, none, none, none, none⟩)).1 = [] := by
  exact ⟨(listener_payment_callback _).1 rfl,
         (listener_payment_callback _).2 (by decide)⟩

/-- C6: for every sequence of `payment_received` events delivered in a
burst, the handler fires once per event, in arrival order, with no event
dropped, merged, or reordered: the list of callback invocations equals the
list of events. -/
theorem listener_rapid_events (es : List Event)
    (h : ∀ e ∈ es, e.type = "payment_received") :
    (handleMessages (es.map Msg.good)).1 = es ∧
    (handleMessages (es.map Msg.good)).1.length = es.length := by
  suffices heq : (handleMessages (es.map Msg.good)).1 = es from ⟨heq, by rw [heq]⟩
  induction es with
  | nil => rfl
  | cons e es ih =>
      have he := h e (by simp)
      have ih' := ih fun x hx => h x (by simp [hx])
      simp [handleMessages, handleMessage, parseFrame, he, ih']

/-- Witness for C6 at the test suite's five rapid-fire payment events. -/
theorem listener_rapid_events_witness :
    (handleMessages ([⟨"payment_received", some 1000, some "0", none, none, none⟩,
        ⟨"payment_received", some 2000, some "1", none, none, none⟩,
        ⟨"payment_received", some 3000, some "2", none, none, none⟩,
        ⟨"payment_received", some 4000, some "3", none, none, none⟩,
        ⟨"payment_received", some 5000, some "4", none, none, none⟩].map Msg.good)).1.length
      = 5 := by
  have h := listener_rapid_events
    [⟨"payment_received", some 1000, some "0", none, none, none⟩,
     ⟨"payment_received", some 2000, some "1", none, none, none⟩,
     ⟨"payment_received", some 3000, some "2", none, none, none⟩,
     ⟨"payment_received", some 4000, some "3", none, none, none⟩,
     ⟨"payment_received", some 5000, some "4", none, none, none⟩] (by decide)
  exact h.2

/-- C4: a frame that is not valid JSON is logged and discarded by the
component receiving it: the caught parse exception becomes a log entry
and never escapes the handler, no event callback fires for the bad frame,
the connection state is untouched (not torn down), subsequent valid frames
are still processed normally, and the ReceivePage's `onmessage` handler
likewise logs and leaves its state unchanged. -/
theorem badFrame_discarded (raw : String) (rest : List Msg) :
    (handleMessage (.bad raw)).1 = [] ∧
    (handleMessage (.bad raw)).2 ≠ [] ∧
    (∀ s : Hook, step s (.message (.bad raw)) = s) ∧
    (handleMessages (.bad raw :: rest)).1 = (handleMessages rest).1 ∧
    (handleMessages (.bad raw :: rest)).2
        = (handleMessage (.bad raw)).2 ++ (handleMessages rest).2 ∧
    (∀ (awaited : String) (fb : Nat) (st : ReceiveState),
        (receiveOnMessage awaited fb st (.bad raw)).1 = st ∧
        (receiveOnMessage awaited fb st (.bad raw)).2 ≠ []) := by
  refine ⟨rfl, by simp [handleMessage, parseFrame], fun s => rfl,
    by simp [handleMessages, handleMessage, parseFrame], rfl,
    fun awaited fb st => ⟨rfl, by simp [receiveOnMessage, parseFrame]⟩⟩

/-- Witness for C4 at the test suite's `invalid json{` frame. -/
theorem badFrame_discarded_witness :
    (handleMessage (.bad "invalid json\x7b")).1 = [] ∧
    (handleMessages [.bad "invalid json\x7b",
        .good ⟨"payment_received", some 1000, none, none, none, none⟩]).1
      = [⟨"payment_received", some 1000, none, none, none, none⟩] := by
  have h := badFrame_discarded "invalid json\x7b"
    [.good ⟨"payment_received", some 1000, none, none, none, none⟩]
  exact ⟨h.1, by rw [h.2.2.2.1]; decide⟩

/-- C7: the ReceivePage's paid transition and its celebration side effects
fire exactly when a delivered event has `type = "payment_received"` and
`paymentHash` equal to the awaited invoice's hash; any other event leaves
the page state unchanged; and this filtering is the caller's, not the
Listener's: the Listener delivers every `payment_received` event whatever
its `paymentHash`. -/
theorem receive_paid_filtering (awaited : String) (fb : Nat) (st : ReceiveState)
    (e : Event) :
    (e.type = "payment_received" → e.paymentHash = some awaited →
        (receiveOnMessage awaited fb st (.good e)).1.isPaid = true ∧
        (receiveOnMessage awaited fb st (.good e)).1.celebrations
            = st.celebrations + 1 ∧
        (receiveOnMessage awaited fb st (.good e)).1.paidAmount
            = paidAmountOf e fb) ∧
    (¬(e.type = "payment_received" ∧ e.paymentHash = some awaited) →
        (receiveOnMessage awaited fb st (.good e)).1 = st) ∧
    (e.type = "payment_received" → (handleMessage (.good e)).1 = [e]) := by
  refine ⟨?_, ?_, fun h => by simp [handleMessage, parseFrame, h]⟩
  · intro ht hh
    simp [receiveOnMessage, parseFrame, ht, hh]
  · intro h
    simp only [receiveOnMessage, parseFrame]
    rw [if_neg h]

/-- Witness for C7: a matching payment marks the page paid; a payment for
a different hash leaves the waiting state unchanged. -/
theorem receive_paid_filtering_witness :
    (receiveOnMessage "cafe" 100 ⟨false, 0, 0⟩
        (.good ⟨"payment_received", some 1000, some "cafe", none, none, none⟩)).1.isPaid
      = true ∧
    (receiveOnMessage "cafe" 100 ⟨false, 0, 0⟩
        (.good ⟨"payment_received", some 1000, some "beef", none, none, none⟩)).1
      = ⟨false, 0, 0⟩ := by
  refine ⟨(receive_paid_filtering "cafe" 100 ⟨false, 0, 0⟩ _).1 rfl rfl |>.1, ?_⟩
  exact (receive_paid_filtering "cafe" 100 ⟨false, 0, 0⟩
    ⟨"payment_received", some 1000, some "beef", none, none, none⟩).2.1 (by decide)

/-- C8: every `PhoenixdService` call whose upstream response is non-2xx
raises a typed `UpstreamError` carrying the HTTP status and message; the
pass-through route surfaces it as a single HTTP 500 response carrying the
error message, making exactly one service call (no retry); a 2xx response
raises no failure. -/
theorem upstream_error_propagation (resp : HttpResponse) :
    (¬(200 ≤ resp.status ∧ resp.status < 300) →
        serviceRequest resp
          = .error ⟨resp.status, "Phoenixd API error: " ++ toString resp.status⟩ ∧
        (routeHandler resp).2
          = (500, "Phoenixd API error: " ++ toString resp.status)) ∧
    ((200 ≤ resp.status ∧ resp.status < 300) →
        serviceRequest resp = .ok resp.body ∧ (routeHandler resp).2 = (200, resp.body)) ∧
    (routeHandler resp).1 = 1 := by
  refine ⟨?_, ?_, ?_⟩
  · intro h
    have hs : serviceRequest resp
        = .error ⟨resp.status, "Phoenixd API error: " ++ toString resp.status⟩ := by
      rw [serviceRequest, if_neg h]
    exact ⟨hs, by rw [routeHandler, hs]⟩
  · intro h
    have hs : serviceRequest resp = .ok resp.body := by rw [serviceRequest, if_pos h]
    exact ⟨hs, by rw [routeHandler, hs]⟩
  · rw [routeHandler]
    cases serviceRequest resp <;> rfl

/-- Witness for C8 at the test suite's 500 and 200 upstream responses. -/
theorem upstream_error_propagation_witness :
    (routeHandler ⟨500, "Internal server error"⟩).2 = (500, "Phoenixd API error: 500") ∧
    (routeHandler ⟨200, "nodeinfo"⟩).2 = (200, "nodeinfo") := by
  refine ⟨?_, ?_⟩
  · have h := (upstream_error_propagation ⟨500, "Internal server error"⟩).1 (by decide)
    exact h.2
  · exact ((upstream_error_propagation ⟨200, "nodeinfo"⟩).2.1 (by decide)).2

/-- C9 counterexample: after an invoice for hash `hash-1` is shown
(amount input `"100"`), editing the amount input to `"200"` re-runs the
effect — whose dependency array is `[invoiceResult?.paymentHash,
invoiceAmount]` — and opens a second WebSocket although the `paymentHash`
is unchanged, refuting "a new connection is opened only when a new invoice
with a different paymentHash is produced". -/
theorem receive_reconnect_on_amount_change :
    (pageStep (pageStep initPage (.render ⟨some "hash-1", "100"⟩))
        (.render ⟨some "hash-1", "200"⟩)).opened = 2 ∧
    (RenderDeps.paymentHash ⟨some "hash-1", "100"⟩
        = RenderDeps.paymentHash ⟨some "hash-1", "200"⟩) := by
  decide

/-- C9 amended: the ReceivePage never reconnects on its own — a
spontaneous socket close or error never opens a connection; a re-render
with unchanged dependencies is a no-op; a new connection is opened only
when the effect's dependencies (`paymentHash` or the `invoiceAmount`
input) changed and a `paymentHash` is present; and teardown closes the
current socket. -/
theorem receivepage_connection_policy (st : PageWs) (d : RenderDeps) :
    (pageStep st .socketClosed).opened = st.opened ∧
    (st.prevDeps = some d → pageStep st (.render d) = st) ∧
    (st.opened < (pageStep st (.render d)).opened →
        st.prevDeps ≠ some d ∧ d.paymentHash ≠ none) ∧
    (pageStep st .unmount).currentWs = none ∧
    (st.currentWs.isSome = true →
        (pageStep st .unmount).closes = st.closes + 1) := by
  refine ⟨rfl, fun h => by simp [pageStep, h], ?_, rfl, fun h => by simp [pageStep, h]⟩
  intro hlt
  by_cases hprev : st.prevDeps = some d
  · rw [pageStep] at hlt
    simp [hprev] at hlt
  · refine ⟨hprev, ?_⟩
    intro hnone
    rw [pageStep] at hlt
    simp only [hprev, if_false, hnone] at hlt
    omega

/-- Witness for C9's amended theorem: a page with an open socket for
`hash-1` neither reopens on a spontaneous close nor on an identical
re-render, and unmount closes the socket. -/
theorem receivepage_connection_policy_witness :
    (pageStep ⟨some ⟨some "hash-1", "100"⟩, some "hash-1", 1, 0⟩ .socketClosed).opened
        = 1 ∧
    pageStep ⟨some ⟨some "hash-1", "100"⟩, some "hash-1", 1, 0⟩
        (.render ⟨some "hash-1", "100"⟩)
      = ⟨some ⟨some "hash-1", "100"⟩, some "hash-1", 1, 0⟩ ∧
    (pageStep ⟨some ⟨some "hash-1", "100"⟩, some "hash-1", 1, 0⟩ .unmount).closes = 1 := by
  have h := receivepage_connection_policy
    ⟨some ⟨some "hash-1", "100"⟩, some "hash-1", 1, 0⟩ ⟨some "hash-1", "100"⟩
  exact ⟨h.1, h.2.1 rfl, h.2.2.2.2 rfl⟩

/-- Witness for C10 at the test suite's zero-`endChars` input. -/
theorem truncateMiddle_spec_witness :
    truncateMiddle ("abcdefghijklmnop".toList) 4 0
        = ("abcd...abcdefghijklmnop".toList) ∧
    ("abcdefghijklmnop".toList).length
        < (truncateMiddle ("abcdefghijklmnop".toList) 4 0).length := by
  have h := (truncateMiddle_spec ("abcdefghijklmnop".toList) 4 0).2.2 (by decide)
  exact ⟨by rw [h.1]; decide, h.2⟩

